import Mathlib

/-!
Shallow embedding of the gamified language-learning core: the question
validation engine (multiple choice, translation with edit-distance fuzzy
matching, fill-in-the-blank), user progression (XP, levels, calendar-day
streaks), achievements, combo tracking and the energy resource.
Definitions are translated from the TypeScript source
(`question-engine.ts`, the gamification module and `UserProgress`);
theorems settle the specification claims against them.
-/

namespace LangGame

/-! ### Text normalization (`trim()` and `toLowerCase()`)

The JavaScript string methods are embedded as character-list operations:
`trim` drops whitespace from both ends, `toLowerCase` maps each character
to lower case. -/

/-- `s.trim()`: the string without leading and trailing whitespace. -/
def trimS (s : String) : String :=
  String.mk (((s.data.dropWhile Char.isWhitespace).reverse.dropWhile
    Char.isWhitespace).reverse)

/-- `s.toLowerCase()`: every character lower-cased. -/
def toLowerS (s : String) : String :=
  String.mk (s.data.map Char.toLower)

/-- Embeds `text.trim().toLowerCase()`, the normalization every validator
applies to candidate answers before comparison. -/
def normalizeText (text : String) : String :=
  toLowerS (trimS text)

/-! ### Levenshtein distance (`TranslationQuestion.levenshteinDistance`)

The source builds the classic DP matrix with `str2` indexing rows and
`str1` indexing columns; row 0 is `0..str1.length` and each later row `i`
starts with `i`.  We embed the matrix row by row: `levRowGo` produces the
body of the next row from the previous row, and `levLoop` iterates over
the characters of `str2`. -/

/-- One row of the edit-distance DP, walking the characters of `str1`.
`prev` is the tail of the previous row starting at the diagonal entry,
`left` is the entry just computed in the current row. -/
def levRowGo (y : Char) : List Char → List Nat → Nat → List Nat
  | [], _, _ => []
  | x :: xs, prev, left =>
    let diag := prev.headD 0
    let up := prev.tail.headD 0
    let cur := if y = x then diag else min (diag + 1) (min (left + 1) (up + 1))
    cur :: levRowGo y xs prev.tail cur

/-- Iterates `levRowGo` over the characters of `str2`; `i` is the row
index, so each new row begins with `i` (the source's `matrix[i] = [i]`
followed by the inner loop). -/
def levLoop (xs : List Char) : List Char → List Nat → Nat → List Nat
  | [], row, _ => row
  | y :: ys, row, i => levLoop xs ys (i :: levRowGo y xs row i) (i + 1)

/-- `levenshteinDistance(str1, str2)`: last entry of the final DP row,
i.e. `matrix[str2.length][str1.length]`. -/
def levenshteinDistance (str1 str2 : List Char) : Nat :=
  (levLoop str1 str2 (List.range (str1.length + 1)) 1).getLastD 0

/-! ### Similarity (`TranslationQuestion.calculateSimilarity`) -/

/-- `calculateSimilarity(str1, str2)`: returns 1.0 when the strings are
equal, 0 when either is empty, and otherwise
`1 - distance / max(len1, len2)`. -/
def calculateSimilarity (str1 str2 : String) : ℚ :=
  if str1 = str2 then 1
  else
    let len1 := str1.length
    let len2 := str2.length
    if len1 = 0 ∨ len2 = 0 then 0
    else
      let maxLen := max len1 len2
      let distance := levenshteinDistance str1.toList str2.toList
      1 - (distance : ℚ) / (maxLen : ℚ)

/-- `isFuzzyMatch(str1, str2)`: similarity at least 0.85. -/
def isFuzzyMatch (str1 str2 : String) : Bool :=
  calculateSimilarity str1 str2 ≥ 0.85

/-! ### Substring testing

`String.prototype.includes` and the feedback-inspection predicates are
embedded as contiguous-sublist tests on character lists. -/

/-- `needle` is an initial segment of `hay`. -/
def startsWithL : List Char → List Char → Bool
  | [], _ => true
  | _ :: _, [] => false
  | a :: as, b :: bs => a = b && startsWithL as bs

/-- `needle` occurs as a contiguous substring of `hay`
(`hay.includes(needle)` in the source). -/
def hasSubstring : List Char → List Char → Bool
  | [], needle => needle.isEmpty
  | h :: t, needle => startsWithL needle (h :: t) || hasSubstring t needle

/-! ### Questions: shared difficulty and points scheme -/

/-- The three difficulty levels of a question. -/
inductive Difficulty where
  | easy
  | medium
  | hard
deriving DecidableEq, Repr

/-- `Question.getBasePoints`: 5, 10 or 15 points by difficulty. -/
def getBasePoints : Difficulty → Nat
  | .easy => 5
  | .medium => 10
  | .hard => 15

/-- `Question.calculatePoints`: 0 when incorrect, otherwise base points
for the difficulty plus a 5-point first-try bonus. -/
def calculatePoints (difficulty : Difficulty) (isCorrect isFirstTry : Bool) : Nat :=
  if !isCorrect then 0
  else getBasePoints difficulty + (if isFirstTry then 5 else 0)

/-- The record every `checkAnswer` produces. -/
structure QuestionResult where
  isCorrect : Bool
  feedback : String
  points : Nat
  correctAnswer : Option String := none
deriving DecidableEq, Repr

/-! ### Multiple choice (`MultipleChoiceQuestion`) -/

/-- Data of a multiple-choice question.  `correctIndex` is an arbitrary
integer, as in the source, where nothing ties it to the choice list. -/
structure MultipleChoiceQuestion where
  text : String
  choices : List String
  correctIndex : Int
  difficulty : Difficulty := .medium
deriving DecidableEq, Repr

/-- JavaScript array indexing: in range gives the element, out of range
gives `undefined`, embedded as `none`. -/
def jsIndex (l : List String) (i : Int) : Option String :=
  if 0 ≤ i ∧ i.toNat < l.length then l.get? i.toNat else none

/-- `MultipleChoiceQuestion.checkAnswer`.  The source reads
`this.choices[this.correctIndex]` and immediately calls `.toLowerCase()`
on it; when the index is out of range that lookup yields `undefined` and
the method throws, embedded here as `none`. -/
def MultipleChoiceQuestion.checkAnswer (q : MultipleChoiceQuestion)
    (answer : String) (isFirstTry : Bool := false) : Option QuestionResult :=
  let normalizedAnswer := toLowerS (trimS answer)
  match jsIndex q.choices q.correctIndex with
  | none => none
  | some correctAnswer =>
    let normalizedCorrect := toLowerS correctAnswer
    let isCorrect := normalizedAnswer = normalizedCorrect
    let points := calculatePoints q.difficulty isCorrect isFirstTry
    if isCorrect then
      some { isCorrect := true, feedback := "Correct!", points := points }
    else
      some { isCorrect := false
             feedback := "Incorrect. The correct answer is: " ++ correctAnswer
             points := 0
             correctAnswer := some correctAnswer }

/-! ### Translation (`TranslationQuestion`) -/

/-- Data of a translation question. -/
structure TranslationQuestion where
  text : String
  sourceText : String
  acceptedTranslations : List String
  difficulty : Difficulty := .medium
deriving DecidableEq, Repr

/-- The loop body of `TranslationQuestion.checkAnswer`: scan the accepted
translations in order; an exact normalized match or a fuzzy match on an
entry returns immediately. -/
def translationScan (difficulty : Difficulty) (isFirstTry : Bool)
    (normalized : String) : List String → Option QuestionResult
  | [] => none
  | accepted :: rest =>
    let normalizedAccepted := normalizeText accepted
    if normalized = normalizedAccepted then
      some { isCorrect := true, feedback := "Correct!"
             points := calculatePoints difficulty true isFirstTry }
    else if isFuzzyMatch normalized normalizedAccepted then
      some { isCorrect := true
             feedback := "Correct! (Note: minor typo detected)"
             points := calculatePoints difficulty true isFirstTry }
    else translationScan difficulty isFirstTry normalized rest

/-- `TranslationQuestion.checkAnswer`: scan as above; on no match, report
failure quoting the first accepted translation (`undefined` rendered by
the template literal when the list is empty, as in JavaScript). -/
def TranslationQuestion.checkAnswer (q : TranslationQuestion)
    (answer : String) (isFirstTry : Bool := false) : QuestionResult :=
  let normalized := normalizeText answer
  match translationScan q.difficulty isFirstTry normalized q.acceptedTranslations with
  | some r => r
  | none =>
    { isCorrect := false
      feedback := "Not quite. Expected: " ++ (q.acceptedTranslations.headD "undefined")
      points := 0
      correctAnswer := q.acceptedTranslations.head? }

/-! ### Fill in the blank (`FillInBlankQuestion`) -/

/-- Data of a fill-in-the-blank question. -/
structure FillInBlankQuestion where
  text : String
  correctAnswer : String
  acceptedAnswers : List String
  difficulty : Difficulty := .medium
deriving DecidableEq, Repr

/-- `FillInBlankQuestion.generateHint`: a past-tense hint when the prompt
contains "yesterday" or "ago", otherwise the correct answer. -/
def FillInBlankQuestion.generateHint (q : FillInBlankQuestion) : String :=
  if hasSubstring q.text.toList "yesterday".toList
      || hasSubstring q.text.toList "ago".toList then
    "Hint: Check the past tense form."
  else "Incorrect. The correct answer is: " ++ q.correctAnswer

/-- The loop of `FillInBlankQuestion.checkAnswer`: exact
(case-insensitive) match against any accepted answer. -/
def fillInBlankScan (difficulty : Difficulty) (isFirstTry : Bool)
    (normalized : String) : List String → Option QuestionResult
  | [] => none
  | accepted :: rest =>
    if normalized = toLowerS accepted then
      some { isCorrect := true, feedback := "Correct!"
             points := calculatePoints difficulty true isFirstTry }
    else fillInBlankScan difficulty isFirstTry normalized rest

/-- `FillInBlankQuestion.checkAnswer`. -/
def FillInBlankQuestion.checkAnswer (q : FillInBlankQuestion)
    (answer : String) (isFirstTry : Bool := false) : QuestionResult :=
  let normalized := toLowerS (trimS answer)
  match fillInBlankScan q.difficulty isFirstTry normalized q.acceptedAnswers with
  | some r => r
  | none =>
    { isCorrect := false
      feedback := q.generateHint
      points := 0
      correctAnswer := some q.correctAnswer }

/-! ### Dates

`UserProgress` strips a `Date` to its calendar day before any streak
arithmetic.  A date is embedded as a calendar day index together with the
milliseconds elapsed within that day, so `getTime` recovers the epoch
timestamp and stripping zeroes the intra-day part. -/

/-- A calendar date: day index since the epoch plus milliseconds within
the day. -/
structure DateM where
  day : Int
  msInDay : Int := 0
deriving DecidableEq, Repr

/-- Milliseconds per day, the source's `24 * 60 * 60 * 1000`. -/
def msPerDay : Int := 24 * 60 * 60 * 1000

/-- `date.getTime()`: epoch milliseconds. -/
def DateM.getTime (d : DateM) : Int :=
  d.day * msPerDay + d.msInDay

/-- `UserProgress.stripTime`: the same calendar day at midnight. -/
def stripTime (d : DateM) : DateM :=
  { day := d.day }

/-- `UserProgress.getDaysDifference`: floor of the millisecond difference
divided by a day (`Math.floor` rounds toward minus infinity). -/
def getDaysDifference (date1 date2 : DateM) : Int :=
  Int.fdiv (date2.getTime - date1.getTime) msPerDay

/-! ### User progress (`UserProgress`) -/

/-- The mutable state of `UserProgress` that XP, level and streak
operations touch. -/
structure ProgressState where
  xp : Int
  level : Int
  streak : Int
  lastActivityDate : Option DateM
deriving DecidableEq, Repr

/-- A fresh `UserProgress`: no XP, level 1, no streak, no activity. -/
def ProgressState.init : ProgressState :=
  { xp := 0, level := 1, streak := 0, lastActivityDate := none }

/-- The level thresholds `XP_THRESHOLDS = [0, 100, 250, 500, 1000, 2000,
4000, 8000]`. -/
def XP_THRESHOLDS : List Int := [0, 100, 250, 500, 1000, 2000, 4000, 8000]

/-- The countdown loop of `UserProgress.updateLevel`: try indices
`n-1, n-2, …, 0` and return `i + 1` for the first `i` with
`xp ≥ XP_THRESHOLDS[i]`. -/
def updateLevelGo (xp : Int) : Nat → Option Int
  | 0 => none
  | n + 1 =>
    if xp ≥ XP_THRESHOLDS.getD n 0 then some ((n : Int) + 1)
    else updateLevelGo xp n

/-- `UserProgress.updateLevel`: the loop above over the whole threshold
table; when no threshold is met (impossible for non-negative XP) the
level is left unchanged. -/
def updateLevel (xp level : Int) : Int :=
  match updateLevelGo xp XP_THRESHOLDS.length with
  | some l => l
  | none => level

/-- `UserProgress.addXP`: throws on a negative amount before any
mutation; otherwise adds the amount, recomputes the level, and reports
whether the level rose. -/
def addXP (s : ProgressState) (amount : Int) : ProgressState × Except String Bool :=
  if amount < 0 then (s, Except.error "XP must be positive")
  else
    let oldLevel := s.level
    let newXp := s.xp + amount
    let newLevel := updateLevel newXp s.level
    ({ s with xp := newXp, level := newLevel },
     Except.ok (decide (oldLevel < newLevel)))

/-- `UserProgress.recordActivity`: strip the date to a calendar day; a
first-ever call starts the streak at 1; a same-day call is a no-op; a
next-day call increments the streak; anything else resets it to 1. -/
def recordActivity (s : ProgressState) (date : DateM) : ProgressState :=
  let today := stripTime date
  match s.lastActivityDate with
  | none => { s with streak := 1, lastActivityDate := some today }
  | some last =>
    let lastActivity := stripTime last
    let daysDiff := getDaysDifference lastActivity today
    if daysDiff = 0 then s
    else if daysDiff = 1 then
      { s with streak := s.streak + 1, lastActivityDate := some today }
    else { s with streak := 1, lastActivityDate := some today }

/-! ### Achievements (`Achievement`, `AchievementTracker`) -/

/-- The four achievement tiers. -/
inductive AchievementTier where
  | bronze
  | silver
  | gold
  | platinum
deriving DecidableEq, Repr

/-- An achievement: immutable identity plus the mutable unlock flag and
timestamp. -/
structure Achievement where
  id : String
  name : String
  description : String
  tier : AchievementTier
  unlocked : Bool := false
  unlockedAt : Option Int := none
deriving DecidableEq, Repr

/-- The plain-data view `Achievement.toData` produces. -/
structure AchievementData where
  id : String
  name : String
  description : String
  tier : AchievementTier
  unlockedAt : Option Int
deriving DecidableEq, Repr

/-- `Achievement.unlock`: flips the flag and stamps the unlock time on a
locked achievement, and does nothing on an unlocked one.  The source
reads `Date.now()` for the stamp; `now` embeds that ambient clock value,
not a caller-supplied parameter. -/
def Achievement.unlock (a : Achievement) (now : Int) : Achievement :=
  if a.unlocked then a
  else { a with unlocked := true, unlockedAt := some now }

/-- `Achievement.toData`. -/
def Achievement.toData (a : Achievement) : AchievementData :=
  { id := a.id, name := a.name, description := a.description
    tier := a.tier, unlockedAt := a.unlockedAt }

/-- The fixed catalog `initializeAchievements` seeds, in insertion
order. -/
def achievementCatalog : List Achievement :=
  [ { id := "first-lesson", name := "First Steps"
      description := "Complete your first lesson", tier := .bronze },
    { id := "ten-lessons", name := "Getting Started"
      description := "Complete 10 lessons", tier := .silver },
    { id := "week-streak", name := "Week Warrior"
      description := "Maintain a 7-day streak", tier := .gold },
    { id := "month-streak", name := "Dedication Master"
      description := "Maintain a 30-day streak", tier := .platinum } ]

/-- The tracker state: the achievement map, in insertion order (a
JavaScript `Map` preserves it). -/
structure TrackerState where
  achievements : List Achievement
deriving DecidableEq, Repr

/-- A freshly constructed `AchievementTracker`. -/
def TrackerState.init : TrackerState :=
  { achievements := achievementCatalog }

/-- `this.achievements.get(aid)?.unlock()`: unlock the achievement with
the given id, leaving every other entry alone. -/
def unlockById (l : List Achievement) (aid : String) (now : Int) : List Achievement :=
  l.map fun a => if a.id = aid then a.unlock now else a

/-- `AchievementTracker.checkLessonCompletion`. -/
def checkLessonCompletion (t : TrackerState) (lessonCount : Int) (now : Int) : TrackerState :=
  let l1 := if lessonCount ≥ 1 then unlockById t.achievements "first-lesson" now
            else t.achievements
  let l2 := if lessonCount ≥ 10 then unlockById l1 "ten-lessons" now else l1
  { achievements := l2 }

/-- `AchievementTracker.checkStreak`. -/
def checkStreak (t : TrackerState) (streakDays : Int) (now : Int) : TrackerState :=
  let l1 := if streakDays ≥ 7 then unlockById t.achievements "week-streak" now
            else t.achievements
  let l2 := if streakDays ≥ 30 then unlockById l1 "month-streak" now else l1
  { achievements := l2 }

/-- `AchievementTracker.getUnlockedAchievements`: the data of every
unlocked achievement, in catalog order. -/
def getUnlockedAchievements (t : TrackerState) : List AchievementData :=
  (t.achievements.filter (·.unlocked)).map Achievement.toData

/-- One tracker call: either `checkLessonCompletion` or `checkStreak`,
with the count and the ambient clock value at the call. -/
inductive TrackerOp where
  | lesson (lessonCount : Int) (now : Int)
  | streak (streakDays : Int) (now : Int)
deriving DecidableEq, Repr

/-- Apply one tracker call. -/
def trackerStep (t : TrackerState) : TrackerOp → TrackerState
  | .lesson c now => checkLessonCompletion t c now
  | .streak d now => checkStreak t d now

/-- Run a sequence of tracker calls. -/
def trackerRun (t : TrackerState) (ops : List TrackerOp) : TrackerState :=
  ops.foldl trackerStep t

/-! ### Combo system (`ComboSystem`) -/

/-- The combo counters. -/
structure ComboState where
  currentCombo : Nat
  highestCombo : Nat
deriving DecidableEq, Repr

/-- A freshly constructed `ComboSystem`. -/
def ComboState.init : ComboState :=
  { currentCombo := 0, highestCombo := 0 }

/-- `ComboSystem.recordAnswer`: a correct answer extends the combo and
raises the watermark when passed; an incorrect answer resets the combo. -/
def ComboState.recordAnswer (s : ComboState) (isCorrect : Bool) : ComboState :=
  if isCorrect then
    let cur := s.currentCombo + 1
    { currentCombo := cur
      highestCombo := if cur > s.highestCombo then cur else s.highestCombo }
  else { s with currentCombo := 0 }

/-- Run a sequence of `recordAnswer` calls. -/
def comboRun (s : ComboState) (answers : List Bool) : ComboState :=
  answers.foldl ComboState.recordAnswer s

/-! ### Energy system (`EnergySystem`) -/

/-- The energy resource state. -/
structure EnergyState where
  maxEnergy : Int
  currentEnergy : Int
  lastUpdate : Int
deriving DecidableEq, Repr

/-- The constructor: full energy, `lastUpdate = Date.now()` (the ambient
clock at construction). -/
def EnergyState.init (maxEnergy : Int) (now : Int) : EnergyState :=
  { maxEnergy := maxEnergy, currentEnergy := maxEnergy, lastUpdate := now }

/-- `EnergySystem.recordAnswer`: a wrong answer costs one energy when any
remains and stamps `lastUpdate` with the ambient clock; a correct answer
changes nothing. -/
def EnergyState.recordAnswer (s : EnergyState) (isCorrect : Bool) (now : Int) : EnergyState :=
  if !isCorrect ∧ 0 < s.currentEnergy then
    { s with currentEnergy := s.currentEnergy - 1, lastUpdate := now }
  else s

/-- `EnergySystem.regenerate(currentTime)`: no-op at (or above) full
energy; otherwise add one energy per whole elapsed hour, capped at the
maximum, and advance `lastUpdate` to `currentTime`. -/
def EnergyState.regenerate (s : EnergyState) (currentTime : Int) : EnergyState :=
  if s.currentEnergy ≥ s.maxEnergy then s
  else
    let energyToRegenerate := Int.fdiv (currentTime - s.lastUpdate) (60 * 60 * 1000)
    if energyToRegenerate > 0 then
      { s with currentEnergy := min s.maxEnergy (s.currentEnergy + energyToRegenerate)
               lastUpdate := currentTime }
    else s

/-- `EnergySystem.refill`: back to full, `lastUpdate` stamped with the
ambient clock. -/
def EnergyState.refill (s : EnergyState) (now : Int) : EnergyState :=
  { s with currentEnergy := s.maxEnergy, lastUpdate := now }

/-- One energy-system call. -/
inductive EnergyOp where
  | record (isCorrect : Bool) (now : Int)
  | regen (currentTime : Int)
  | refill (now : Int)
deriving DecidableEq, Repr

/-- Apply one energy-system call. -/
def energyStep (s : EnergyState) : EnergyOp → EnergyState
  | .record b now => s.recordAnswer b now
  | .regen t => s.regenerate t
  | .refill now => s.refill now

/-- Run a sequence of energy-system calls. -/
def energyRun (s : EnergyState) (ops : List EnergyOp) : EnergyState :=
  ops.foldl energyStep s

/-- The per-entry acceptance test of the translation scan: the normalized
answer equals the normalized accepted entry, or is a fuzzy match for
it. -/
def translationMatches (normalized accepted : String) : Bool :=
  decide (normalized = normalizeText accepted)
    || isFuzzyMatch normalized (normalizeText accepted)

/-! ## Theorems -/

/-- Claim C1: the spec asserts `calculateSimilarity("", "") = 0`.  The
code checks `str1 === str2` before the zero-length test, so the two empty
strings short-circuit to 1, refuting the claim. -/
theorem calculateSimilarity_empty_empty_ne_zero :
    calculateSimilarity "" "" = 1 ∧ calculateSimilarity "" "" ≠ 0 := by
  constructor
  · simp [calculateSimilarity]
  · simp [calculateSimilarity]

/-- Claim C1 (amended): the two empty strings are equal, so the
similarity short-circuits to 1.0; the zero-length rule returns 0 only
when exactly one side is empty (so the strings are unequal). -/
theorem calculateSimilarity_empty_cases :
    calculateSimilarity "" "" = 1
  ∧ (∀ s : String, s ≠ "" → calculateSimilarity "" s = 0 ∧ calculateSimilarity s "" = 0) := by
  refine ⟨by simp [calculateSimilarity], fun s hs => ?_⟩
  constructor
  · simp [calculateSimilarity, Ne.symm hs]
  · simp [calculateSimilarity, hs]

/-- Witness for the amended C1 at the concrete string "a". -/
theorem calculateSimilarity_empty_cases_witness :
    calculateSimilarity "" "a" = 0 ∧ calculateSimilarity "a" "" = 0 :=
  calculateSimilarity_empty_cases.2 "a" (by decide)

/-- One `ComboSystem.recordAnswer` call preserves `current ≤ highest` and
never lowers the watermark. -/
lemma comboStep_bounds (s : ComboState) (b : Bool)
    (h : s.currentCombo ≤ s.highestCombo) :
    (s.recordAnswer b).currentCombo ≤ (s.recordAnswer b).highestCombo
    ∧ s.highestCombo ≤ (s.recordAnswer b).highestCombo := by
  cases b
  · simp [ComboState.recordAnswer]
  · simp [ComboState.recordAnswer]; split <;> omega

/-- Claim C9: from the fresh combo state, every sequence of
`recordAnswer` calls keeps `currentCombo ≤ highestCombo`, and a single
call never decreases `highestCombo` from any state. -/
theorem combo_invariant :
    (∀ answers : List Bool,
        (comboRun ComboState.init answers).currentCombo
          ≤ (comboRun ComboState.init answers).highestCombo)
  ∧ (∀ (s : ComboState) (b : Bool),
        s.highestCombo ≤ (s.recordAnswer b).highestCombo) := by
  constructor
  · intro answers
    suffices h : ∀ (s : ComboState), s.currentCombo ≤ s.highestCombo →
        (comboRun s answers).currentCombo ≤ (comboRun s answers).highestCombo by
      exact h ComboState.init (by simp [ComboState.init])
    induction answers with
    | nil => intro s hs; simpa [comboRun] using hs
    | cons b rest ih =>
      intro s hs
      simpa [comboRun] using ih (s.recordAnswer b) (comboStep_bounds s b hs).1
  · intro s b
    cases b
    · simp [ComboState.recordAnswer]
    · simp [ComboState.recordAnswer]; split <;> omega

/-- Claim C10: `MultipleChoiceQuestion.checkAnswer` returns a result
exactly when `correctIndex` is in range of the choice list; out of range,
the `choices[correctIndex].toLowerCase()` lookup fails. -/
theorem mc_checkAnswer_total (q : MultipleChoiceQuestion) (answer : String) (ft : Bool) :
    (0 ≤ q.correctIndex ∧ q.correctIndex < (q.choices.length : Int) →
        ∃ r, q.checkAnswer answer ft = some r)
  ∧ (¬(0 ≤ q.correctIndex ∧ q.correctIndex < (q.choices.length : Int)) →
        q.checkAnswer answer ft = none) := by
  constructor
  · rintro ⟨h0, hlt⟩
    have hn : q.correctIndex.toNat < q.choices.length := by omega
    have hc := List.get?_eq_get (l := q.choices) hn
    unfold MultipleChoiceQuestion.checkAnswer jsIndex
    rw [if_pos ⟨h0, hn⟩, hc]
    dsimp only
    split <;> exact ⟨_, rfl⟩
  · intro h
    unfold MultipleChoiceQuestion.checkAnswer jsIndex
    rw [if_neg (by omega)]

/-- Witness for C10: a two-choice question with index 1 returns a result,
and the same question with index 2 fails. -/
theorem mc_checkAnswer_total_witness :
    (∃ r, MultipleChoiceQuestion.checkAnswer ⟨"q", ["a", "b"], 1, .easy⟩ "a" false = some r)
  ∧ MultipleChoiceQuestion.checkAnswer ⟨"q", ["a", "b"], 2, .easy⟩ "a" false = none :=
  ⟨(mc_checkAnswer_total ⟨"q", ["a", "b"], 1, .easy⟩ "a" false).1 (by decide),
   (mc_checkAnswer_total ⟨"q", ["a", "b"], 2, .easy⟩ "a" false).2 (by decide)⟩

/-- Any early return of the translation scan is a correct result carrying
the shared points formula. -/
lemma translationScan_some {d : Difficulty} {ft : Bool} {n : String} :
    ∀ {l : List String} {r : QuestionResult}, translationScan d ft n l = some r →
      r.isCorrect = true ∧ r.points = calculatePoints d true ft
  | [], _, h => by simp [translationScan] at h
  | _ :: _, _, h => by
    simp only [translationScan] at h
    split at h
    · cases h; exact ⟨rfl, rfl⟩
    · split at h
      · cases h; exact ⟨rfl, rfl⟩
      · exact translationScan_some h

/-- Any early return of the fill-in-the-blank scan is a correct result
carrying the shared points formula. -/
lemma fillInBlankScan_some {d : Difficulty} {ft : Bool} {n : String} :
    ∀ {l : List String} {r : QuestionResult}, fillInBlankScan d ft n l = some r →
      r.isCorrect = true ∧ r.points = calculatePoints d true ft
  | [], _, h => by simp [fillInBlankScan] at h
  | _ :: _, _, h => by
    simp only [fillInBlankScan] at h
    split at h
    · cases h; exact ⟨rfl, rfl⟩
    · exact fillInBlankScan_some h

/-- Claim C6: the base points are 5/10/15 for easy/medium/hard, and every
variant's `checkAnswer` awards 0 points on an incorrect result and
`basePoints + 5·firstTry` on a correct one. -/
theorem checkAnswer_points :
    (getBasePoints .easy = 5 ∧ getBasePoints .medium = 10 ∧ getBasePoints .hard = 15)
  ∧ (∀ (q : MultipleChoiceQuestion) (answer : String) (ft : Bool) (r : QuestionResult),
        q.checkAnswer answer ft = some r →
        r.points = if r.isCorrect then getBasePoints q.difficulty + (if ft then 5 else 0) else 0)
  ∧ (∀ (q : TranslationQuestion) (answer : String) (ft : Bool),
        (q.checkAnswer answer ft).points = if (q.checkAnswer answer ft).isCorrect
          then getBasePoints q.difficulty + (if ft then 5 else 0) else 0)
  ∧ (∀ (q : FillInBlankQuestion) (answer : String) (ft : Bool),
        (q.checkAnswer answer ft).points = if (q.checkAnswer answer ft).isCorrect
          then getBasePoints q.difficulty + (if ft then 5 else 0) else 0) := by
  refine ⟨⟨rfl, rfl, rfl⟩, ?_, ?_, ?_⟩
  · intro q answer ft r h
    cases hj : jsIndex q.choices q.correctIndex with
    | none => simp [MultipleChoiceQuestion.checkAnswer, hj] at h
    | some c =>
      by_cases hc : toLowerS (trimS answer) = toLowerS c
      · simp [MultipleChoiceQuestion.checkAnswer, hj, hc] at h
        simp [← h, calculatePoints]
      · simp [MultipleChoiceQuestion.checkAnswer, hj, hc] at h
        simp [← h]
  · intro q answer ft
    cases hs : translationScan q.difficulty ft (normalizeText answer) q.acceptedTranslations with
    | none => simp [TranslationQuestion.checkAnswer, hs]
    | some r0 =>
      obtain ⟨h1, h2⟩ := translationScan_some hs
      simp [TranslationQuestion.checkAnswer, hs, h1, h2, calculatePoints]
  · intro q answer ft
    cases hs : fillInBlankScan q.difficulty ft (toLowerS (trimS answer)) q.acceptedAnswers with
    | none => simp [FillInBlankQuestion.checkAnswer, hs]
    | some r0 =>
      obtain ⟨h1, h2⟩ := fillInBlankScan_some hs
      simp [FillInBlankQuestion.checkAnswer, hs, h1, h2, calculatePoints]

/-- Witness for C6: a hard translation question answered correctly on
first try, and a wrong multiple-choice answer. -/
theorem checkAnswer_points_witness :
    ((TranslationQuestion.checkAnswer ⟨"t", "s", ["hola"], .hard⟩ "hola" true).points
      = if (TranslationQuestion.checkAnswer ⟨"t", "s", ["hola"], .hard⟩ "hola" true).isCorrect
          then getBasePoints .hard + 5 else 0)
  ∧ (∀ r : QuestionResult,
      MultipleChoiceQuestion.checkAnswer ⟨"q", ["a", "b"], 0, .easy⟩ "b" false = some r →
      r.points = if r.isCorrect then getBasePoints .easy + 0 else 0) := by
  constructor
  · simpa using checkAnswer_points.2.2.1 ⟨"t", "s", ["hola"], .hard⟩ "hola" true
  · intro r h
    simpa using checkAnswer_points.2.1 ⟨"q", ["a", "b"], 0, .easy⟩ "b" false r h

/-- After stripping, the day difference of two dates is exactly the
difference of their calendar-day indices. -/
lemma getDaysDifference_strip (d1 d2 : DateM) :
    getDaysDifference (stripTime d1) (stripTime d2) = d2.day - d1.day := by
  have h : d2.day * msPerDay + 0 - (d1.day * msPerDay + 0)
      = (d2.day - d1.day) * msPerDay := by ring
  simp only [getDaysDifference, stripTime, DateM.getTime, h]
  exact Int.mul_fdiv_cancel _ (by norm_num [msPerDay])

/-- Claim C2: the first `recordActivity` call sets the streak to 1; a
same-calendar-day call changes nothing; a next-day call increments the
streak; any other gap (two or more days, or backward) resets it to 1. -/
theorem recordActivity_streak (s : ProgressState) (d : DateM) :
    (s.lastActivityDate = none → (recordActivity s d).streak = 1)
  ∧ (∀ last, s.lastActivityDate = some last →
        ((d.day = last.day → recordActivity s d = s)
       ∧ (d.day = last.day + 1 → (recordActivity s d).streak = s.streak + 1)
       ∧ (d.day ≠ last.day ∧ d.day ≠ last.day + 1 → (recordActivity s d).streak = 1))) := by
  constructor
  · intro h
    simp [recordActivity, h]
  · intro last h
    have hd := getDaysDifference_strip last d
    refine ⟨?_, ?_, ?_⟩
    · intro he
      simp [recordActivity, h, hd, he]
    · intro he
      simp [recordActivity, h, hd, he]
    · rintro ⟨h1, h2⟩
      have hz : d.day - last.day ≠ 0 := by omega
      have ho : d.day - last.day ≠ 1 := by omega
      simp [recordActivity, h, hd, hz, ho]

/-- Witness for C2: the four streak scenarios at concrete dates (first
call, same day, next day, three-day gap). -/
theorem recordActivity_streak_witness :
    (recordActivity ⟨0, 1, 0, none⟩ ⟨100, 5⟩).streak = 1
  ∧ recordActivity ⟨0, 1, 4, some ⟨100, 0⟩⟩ ⟨100, 999⟩ = ⟨0, 1, 4, some ⟨100, 0⟩⟩
  ∧ (recordActivity ⟨0, 1, 4, some ⟨100, 0⟩⟩ ⟨101, 3⟩).streak = 4 + 1
  ∧ (recordActivity ⟨0, 1, 4, some ⟨100, 0⟩⟩ ⟨103, 0⟩).streak = 1 :=
  ⟨(recordActivity_streak ⟨0, 1, 0, none⟩ ⟨100, 5⟩).1 rfl,
   ((recordActivity_streak ⟨0, 1, 4, some ⟨100, 0⟩⟩ ⟨100, 999⟩).2 ⟨100, 0⟩ rfl).1 rfl,
   ((recordActivity_streak ⟨0, 1, 4, some ⟨100, 0⟩⟩ ⟨101, 3⟩).2 ⟨100, 0⟩ rfl).2.1 rfl,
   ((recordActivity_streak ⟨0, 1, 4, some ⟨100, 0⟩⟩ ⟨103, 0⟩).2 ⟨100, 0⟩ rfl).2.2 (by decide)⟩

/-- The level-table countdown, fully unrolled over the eight
thresholds. -/
lemma updateLevelGo_full (xp : Int) :
    updateLevelGo xp 8 =
      if xp ≥ 8000 then some 8
      else if xp ≥ 4000 then some 7
      else if xp ≥ 2000 then some 6
      else if xp ≥ 1000 then some 5
      else if xp ≥ 500 then some 4
      else if xp ≥ 250 then some 3
      else if xp ≥ 100 then some 2
      else if xp ≥ 0 then some 1
      else none := by
  norm_num [updateLevelGo, XP_THRESHOLDS]

/-- `updateLevel` as an explicit threshold cascade; when no threshold is
met the old level survives. -/
lemma updateLevel_eq (xp level : Int) :
    updateLevel xp level =
      if xp ≥ 8000 then 8
      else if xp ≥ 4000 then 7
      else if xp ≥ 2000 then 6
      else if xp ≥ 1000 then 5
      else if xp ≥ 500 then 4
      else if xp ≥ 250 then 3
      else if xp ≥ 100 then 2
      else if xp ≥ 0 then 1
      else level := by
  unfold updateLevel
  rw [show XP_THRESHOLDS.length = 8 from rfl, updateLevelGo_full]
  split_ifs <;> rfl

/-- The threshold table evaluated at each `level - 1` index. -/
lemma XP_getD_vals :
    XP_THRESHOLDS.getD ((1 : Int) - 1).toNat 0 = 0
  ∧ XP_THRESHOLDS.getD ((2 : Int) - 1).toNat 0 = 100
  ∧ XP_THRESHOLDS.getD ((3 : Int) - 1).toNat 0 = 250
  ∧ XP_THRESHOLDS.getD ((4 : Int) - 1).toNat 0 = 500
  ∧ XP_THRESHOLDS.getD ((5 : Int) - 1).toNat 0 = 1000
  ∧ XP_THRESHOLDS.getD ((6 : Int) - 1).toNat 0 = 2000
  ∧ XP_THRESHOLDS.getD ((7 : Int) - 1).toNat 0 = 4000
  ∧ XP_THRESHOLDS.getD ((8 : Int) - 1).toNat 0 = 8000 := by
  decide

/-- For non-negative XP, `updateLevel` computes exactly the
highest-threshold level: it lies in 1..8, its own threshold is met, and
it dominates every met threshold index. -/
lemma updateLevel_char (xp level : Int) (h : 0 ≤ xp) :
    1 ≤ updateLevel xp level ∧ updateLevel xp level ≤ 8
  ∧ XP_THRESHOLDS.getD (updateLevel xp level - 1).toNat 0 ≤ xp
  ∧ ∀ i : Nat, i < 8 → XP_THRESHOLDS.getD i 0 ≤ xp →
      (i : Int) + 1 ≤ updateLevel xp level := by
  obtain ⟨g1, g2, g3, g4, g5, g6, g7, g8⟩ := XP_getD_vals
  rw [updateLevel_eq]
  split_ifs with h1 h2 h3 h4 h5 h6 h7
  all_goals first
    | exact absurd h (by omega)
    | (refine ⟨by norm_num, by norm_num, by omega, ?_⟩
       intro i hi hle
       interval_cases i <;> simp [XP_THRESHOLDS] at hle <;> omega)

/-- Claim C3: `addXP` rejects a negative amount with no state change;
otherwise it adds the amount to `xp`, leaves streak and activity date
alone, recomputes `level` as the highest threshold index not exceeding
the new XP (levels 1..8), and reports exactly whether the level rose. -/
theorem addXP_spec (s : ProgressState) (amount : Int) :
    (amount < 0 → addXP s amount = (s, Except.error "XP must be positive"))
  ∧ (0 ≤ amount → 0 ≤ s.xp →
      ((addXP s amount).1.xp = s.xp + amount
     ∧ (addXP s amount).1.streak = s.streak
     ∧ (addXP s amount).1.lastActivityDate = s.lastActivityDate
     ∧ (1 ≤ (addXP s amount).1.level ∧ (addXP s amount).1.level ≤ 8
        ∧ XP_THRESHOLDS.getD ((addXP s amount).1.level - 1).toNat 0 ≤ (addXP s amount).1.xp
        ∧ ∀ i : Nat, i < 8 → XP_THRESHOLDS.getD i 0 ≤ (addXP s amount).1.xp →
            (i : Int) + 1 ≤ (addXP s amount).1.level)
     ∧ (addXP s amount).2 = Except.ok (decide (s.level < (addXP s amount).1.level)))) := by
  constructor
  · intro h
    simp [addXP, h]
  · intro h hxp
    have hna : ¬ amount < 0 := by omega
    unfold addXP
    rw [if_neg hna]
    exact ⟨rfl, rfl, rfl, updateLevel_char (s.xp + amount) s.level (by omega), rfl⟩

/-- Witness for C3: from the fresh state, `addXP (-5)` fails without
mutation and `addXP 250` lands at 250 XP with a level-up report. -/
theorem addXP_spec_witness :
    addXP ProgressState.init (-5) = (ProgressState.init, Except.error "XP must be positive")
  ∧ (addXP ProgressState.init 250).1.xp = ProgressState.init.xp + 250
  ∧ (addXP ProgressState.init 250).2
      = Except.ok (decide (ProgressState.init.level < (addXP ProgressState.init 250).1.level)) :=
  ⟨(addXP_spec ProgressState.init (-5)).1 (by decide),
   ((addXP_spec ProgressState.init 250).2 (by decide) (by decide)).1,
   ((addXP_spec ProgressState.init 250).2 (by decide) (by decide)).2.2.2.2⟩

/-- One energy-system call preserves the energy bounds and never touches
the maximum. -/
lemma energyStep_inv (s : EnergyState) (op : EnergyOp)
    (h : 0 ≤ s.currentEnergy ∧ s.currentEnergy ≤ s.maxEnergy ∧ 0 ≤ s.maxEnergy) :
    0 ≤ (energyStep s op).currentEnergy
  ∧ (energyStep s op).currentEnergy ≤ (energyStep s op).maxEnergy
  ∧ 0 ≤ (energyStep s op).maxEnergy
  ∧ (energyStep s op).maxEnergy = s.maxEnergy := by
  obtain ⟨h0, h1, h2⟩ := h
  cases op with
  | record b now =>
    dsimp only [energyStep, EnergyState.recordAnswer]
    split
    · rename_i hc
      obtain ⟨hb, hcur⟩ := hc
      dsimp only
      omega
    · omega
  | regen t =>
    dsimp only [energyStep, EnergyState.regenerate]
    split
    · omega
    · generalize Int.fdiv (t - s.lastUpdate) (60 * 60 * 1000) = r
      split
      · dsimp only; omega
      · omega
  | refill now =>
    dsimp only [energyStep, EnergyState.refill]
    omega

/-- Every reachable energy state satisfies the bounds, with the maximum
constant along the run. -/
lemma energyRun_inv (ops : List EnergyOp) :
    ∀ s : EnergyState, 0 ≤ s.currentEnergy → s.currentEnergy ≤ s.maxEnergy → 0 ≤ s.maxEnergy →
      (0 ≤ (energyRun s ops).currentEnergy
     ∧ (energyRun s ops).currentEnergy ≤ (energyRun s ops).maxEnergy
     ∧ 0 ≤ (energyRun s ops).maxEnergy
     ∧ (energyRun s ops).maxEnergy = s.maxEnergy) := by
  induction ops with
  | nil =>
    intro s h0 h1 h2
    exact ⟨h0, h1, h2, rfl⟩
  | cons op rest ih =>
    intro s h0 h1 h2
    have hstep := energyStep_inv s op ⟨h0, h1, h2⟩
    have hrun := ih (energyStep s op) hstep.1 hstep.2.1 hstep.2.2.1
    simp only [energyRun, List.foldl_cons] at hrun ⊢
    exact ⟨hrun.1, hrun.2.1, hrun.2.2.1, hrun.2.2.2.trans hstep.2.2.2⟩

/-- Claim C5: from a construction with non-negative maximum, every
sequence of `recordAnswer`/`regenerate`/`refill` calls keeps
`0 ≤ currentEnergy ≤ maxEnergy`; correct answers never change the state,
wrong answers decrement only above zero, `regenerate` adds the floored
whole hours capped at the maximum, and `refill` restores the maximum. -/
theorem energy_invariant (maxEnergy now0 : Int) (hmax : 0 ≤ maxEnergy) (ops : List EnergyOp) :
    (0 ≤ (energyRun (EnergyState.init maxEnergy now0) ops).currentEnergy
     ∧ (energyRun (EnergyState.init maxEnergy now0) ops).currentEnergy ≤ maxEnergy)
  ∧ (∀ (u : EnergyState) (now : Int), u.recordAnswer true now = u)
  ∧ (∀ (u : EnergyState) (now : Int), 0 < u.currentEnergy →
        (u.recordAnswer false now).currentEnergy = u.currentEnergy - 1)
  ∧ (∀ (u : EnergyState) (now : Int), u.currentEnergy ≤ 0 → u.recordAnswer false now = u)
  ∧ (∀ (u : EnergyState) (now : Int), (u.refill now).currentEnergy = u.maxEnergy)
  ∧ (∀ (u : EnergyState) (t : Int), u.currentEnergy < u.maxEnergy →
        0 < Int.fdiv (t - u.lastUpdate) (60 * 60 * 1000) →
        (u.regenerate t).currentEnergy
          = min u.maxEnergy (u.currentEnergy + Int.fdiv (t - u.lastUpdate) (60 * 60 * 1000))) := by
  refine ⟨?_, ?_, ?_, ?_, ?_, ?_⟩
  · have h := energyRun_inv ops (EnergyState.init maxEnergy now0)
      (by exact hmax) (by exact le_refl _) (by exact hmax)
    refine ⟨h.1, ?_⟩
    have hm := h.2.2.2
    have hle := h.2.1
    rw [hm] at hle
    exact hle
  · intro u now
    simp [EnergyState.recordAnswer]
  · intro u now hcur
    simp [EnergyState.recordAnswer, hcur]
  · intro u now hcur
    simp [EnergyState.recordAnswer, show ¬0 < u.currentEnergy from by omega]
  · intro u now
    rfl
  · intro u t hlt hpos
    unfold EnergyState.regenerate
    rw [if_neg (by omega), if_pos hpos]

/-- Witness for C5: a max-5 system after two wrong answers stays in
bounds; a wrong answer at 3 energy drops to 2; regeneration after 10
hours from 4 energy caps at the maximum. -/
theorem energy_invariant_witness :
    (0 ≤ (energyRun (EnergyState.init 5 0)
            [EnergyOp.record false 1, EnergyOp.record false 2]).currentEnergy
     ∧ (energyRun (EnergyState.init 5 0)
            [EnergyOp.record false 1, EnergyOp.record false 2]).currentEnergy ≤ 5)
  ∧ (EnergyState.recordAnswer ⟨5, 3, 0⟩ false 7).currentEnergy = 3 - 1
  ∧ (EnergyState.regenerate ⟨5, 4, 0⟩ (10 * 60 * 60 * 1000)).currentEnergy
      = min 5 (4 + Int.fdiv (10 * 60 * 60 * 1000 - 0) (60 * 60 * 1000)) :=
  ⟨(energy_invariant 5 0 (by decide)
      [EnergyOp.record false 1, EnergyOp.record false 2]).1,
   (energy_invariant 5 0 (by decide) []).2.2.1 ⟨5, 3, 0⟩ 7 (by decide),
   (energy_invariant 5 0 (by decide) []).2.2.2.2.2 ⟨5, 4, 0⟩ (10 * 60 * 60 * 1000)
      (by decide) (by decide)⟩

/-- The per-entry acceptance test, written out as a proposition. -/
lemma translationMatches_iff (n b : String) :
    translationMatches n b = true ↔
      (n = normalizeText b ∨ calculateSimilarity n (normalizeText b) ≥ 0.85) := by
  simp [translationMatches, isFuzzyMatch, ge_iff_le, Bool.or_eq_true, decide_eq_true_iff]

/-- The translation scan is the in-order first match of the acceptance
test, mapped to the exact or fuzzy success result. -/
lemma translationScan_eq_find (d : Difficulty) (ft : Bool) (n : String) (l : List String) :
    translationScan d ft n l =
      (l.find? (fun b => translationMatches n b)).map
        (fun a =>
          if n = normalizeText a then
            { isCorrect := true, feedback := "Correct!"
              points := calculatePoints d true ft }
          else
            { isCorrect := true, feedback := "Correct! (Note: minor typo detected)"
              points := calculatePoints d true ft }) := by
  induction l with
  | nil => rfl
  | cons a rest ih =>
    by_cases he : n = normalizeText a
    · have hp : translationMatches n a = true := by simp [translationMatches, he]
      rw [List.find?_cons_of_pos _ hp]
      simp [translationScan, he]
    · by_cases hf : isFuzzyMatch n (normalizeText a) = true
      · have hp : translationMatches n a = true := by simp [translationMatches, hf]
        rw [List.find?_cons_of_pos _ hp]
        simp [translationScan, he, hf]
      · have hp : translationMatches n a = false := by
          simp [translationMatches, he]
          simpa using hf
        rw [List.find?_cons_of_neg _ (by simp [hp])]
        rw [show translationScan d ft n (a :: rest) = translationScan d ft n rest from by
          simp only [translationScan, if_neg he, if_neg hf]]
        exact ih

/-- Claim C4: `TranslationQuestion.checkAnswer` accepts exactly when some
accepted translation matches the normalized answer exactly or with
similarity at least 0.85; the first matching entry decides the result,
with the "minor typo" feedback exactly on fuzzy (non-exact) acceptance;
on total failure the first accepted entry is quoted with 0 points. -/
theorem translation_checkAnswer_spec (q : TranslationQuestion) (answer : String) (ft : Bool) :
    ((q.checkAnswer answer ft).isCorrect = true ↔
        ∃ a ∈ q.acceptedTranslations,
          normalizeText answer = normalizeText a
          ∨ calculateSimilarity (normalizeText answer) (normalizeText a) ≥ 0.85)
  ∧ (∀ a, q.acceptedTranslations.find?
          (fun b => translationMatches (normalizeText answer) b) = some a →
        (q.checkAnswer answer ft =
          if normalizeText answer = normalizeText a then
            { isCorrect := true, feedback := "Correct!"
              points := calculatePoints q.difficulty true ft }
          else
            { isCorrect := true, feedback := "Correct! (Note: minor typo detected)"
              points := calculatePoints q.difficulty true ft })
      ∧ (hasSubstring (q.checkAnswer answer ft).feedback.toList "minor typo".toList = true
           ↔ ¬ normalizeText answer = normalizeText a))
  ∧ (q.acceptedTranslations.find?
        (fun b => translationMatches (normalizeText answer) b) = none →
      ∀ a0, q.acceptedTranslations.head? = some a0 →
        q.checkAnswer answer ft =
          { isCorrect := false, feedback := "Not quite. Expected: " ++ a0
            points := 0, correctAnswer := some a0 }) := by
  refine ⟨?_, ?_, ?_⟩
  · cases hfind : q.acceptedTranslations.find?
        (fun b => translationMatches (normalizeText answer) b) with
    | none =>
      have hscan := translationScan_eq_find q.difficulty ft (normalizeText answer)
        q.acceptedTranslations
      rw [hfind] at hscan
      simp only [Option.map_none'] at hscan
      simp only [TranslationQuestion.checkAnswer, hscan]
      constructor
      · intro hco
        simp at hco
      · rintro ⟨a, ha, hp⟩
        exact absurd ((translationMatches_iff _ _).mpr hp)
          (by simpa using List.find?_eq_none.mp hfind a ha)
    | some a =>
      have hmem := List.mem_of_find?_eq_some hfind
      have hp := List.find?_some hfind
      have hscan := translationScan_eq_find q.difficulty ft (normalizeText answer)
        q.acceptedTranslations
      rw [hfind] at hscan
      simp only [Option.map_some'] at hscan
      simp only [TranslationQuestion.checkAnswer, hscan]
      constructor
      · intro _
        exact ⟨a, hmem, (translationMatches_iff _ _).mp hp⟩
      · intro _
        split <;> rfl
  · intro a hfind
    have hscan := translationScan_eq_find q.difficulty ft (normalizeText answer)
      q.acceptedTranslations
    rw [hfind] at hscan
    simp only [Option.map_some'] at hscan
    have hr : q.checkAnswer answer ft =
        if normalizeText answer = normalizeText a then
          { isCorrect := true, feedback := "Correct!"
            points := calculatePoints q.difficulty true ft }
        else
          { isCorrect := true, feedback := "Correct! (Note: minor typo detected)"
            points := calculatePoints q.difficulty true ft } := by
      simp only [TranslationQuestion.checkAnswer, hscan]
    refine ⟨hr, ?_⟩
    rw [hr]
    by_cases he : normalizeText answer = normalizeText a
    · rw [if_pos he]
      dsimp only
      exact ⟨fun hcontra => absurd hcontra (by decide), fun hne => absurd he hne⟩
    · rw [if_neg he]
      dsimp only
      exact ⟨fun _ => he, fun _ => by decide⟩
  · intro hfind a0 h0
    have hscan := translationScan_eq_find q.difficulty ft (normalizeText answer)
      q.acceptedTranslations
    rw [hfind] at hscan
    simp only [Option.map_none'] at hscan
    simp only [TranslationQuestion.checkAnswer, hscan]
    cases hl : q.acceptedTranslations with
    | nil => rw [hl] at h0; simp at h0
    | cons b t =>
      rw [hl] at h0
      simp only [List.head?_cons, Option.some.injEq] at h0
      simp [h0]

/-- The similarity of "mornings" and "morning": distance 1 over maximal
length 8. -/
lemma calculateSimilarity_mornings :
    calculateSimilarity "mornings" "morning" = 7 / 8 := by
  have hne : ("mornings" : String) ≠ "morning" := by decide
  simp only [calculateSimilarity, if_neg hne]
  rw [if_neg (by decide : ¬(String.length "mornings" = 0 ∨ String.length "morning" = 0))]
  rw [show levenshteinDistance "mornings".toList "morning".toList = 1 from by decide]
  rw [show max (String.length "mornings") (String.length "morning") = 8 from by decide]
  norm_num

/-- The similarity of "nope" and "hola": distance 3 over length 4. -/
lemma calculateSimilarity_nope_hola :
    calculateSimilarity "nope" "hola" = 1 / 4 := by
  have hne : ("nope" : String) ≠ "hola" := by decide
  simp only [calculateSimilarity, if_neg hne]
  rw [if_neg (by decide : ¬(String.length "nope" = 0 ∨ String.length "hola" = 0))]
  rw [show levenshteinDistance "nope".toList "hola".toList = 3 from by decide]
  rw [show max (String.length "nope") (String.length "hola") = 4 from by decide]
  norm_num

/-- "mornings" passes the acceptance test against "morning" (fuzzily). -/
lemma translationMatches_mornings :
    translationMatches (normalizeText "mornings") "morning" = true := by
  have hn : normalizeText "mornings" = "mornings" := by decide
  have hm : normalizeText "morning" = "morning" := by decide
  simp only [translationMatches, hn, hm, isFuzzyMatch, calculateSimilarity_mornings]
  simp only [Bool.or_eq_true, decide_eq_true_iff, ge_iff_le]
  right
  norm_num

/-- "nope" fails the acceptance test against "hola". -/
lemma translationMatches_nope_hola :
    translationMatches (normalizeText "nope") "hola" = false := by
  have hn : normalizeText "nope" = "nope" := by decide
  have hm : normalizeText "hola" = "hola" := by decide
  simp only [translationMatches, hn, hm, isFuzzyMatch, calculateSimilarity_nope_hola]
  rw [show decide (("nope" : String) = "hola") = false from by decide]
  simp only [Bool.false_or, decide_eq_false_iff_not, ge_iff_le]
  norm_num

/-- Witness for C4: "mornings" fuzzily matches the accepted "morning"
with the minor-typo feedback, and "nope" against ["hola"] fails quoting
"hola". -/
theorem translation_checkAnswer_spec_witness :
    (TranslationQuestion.checkAnswer ⟨"t", "s", ["morning"], .easy⟩ "mornings" false
       = { isCorrect := true, feedback := "Correct! (Note: minor typo detected)", points := 5 })
  ∧ (TranslationQuestion.checkAnswer ⟨"t", "s", ["hola"], .easy⟩ "nope" false
       = { isCorrect := false, feedback := "Not quite. Expected: hola"
           points := 0, correctAnswer := some "hola" }) := by
  constructor
  · have hfind : List.find? (fun b => translationMatches (normalizeText "mornings") b)
        ["morning"] = some "morning" :=
      List.find?_cons_of_pos _ translationMatches_mornings
    have h := (translation_checkAnswer_spec ⟨"t", "s", ["morning"], .easy⟩
      "mornings" false).2.1 "morning" hfind
    rw [h.1, if_neg (by decide : ¬normalizeText "mornings" = normalizeText "morning")]
    decide
  · have hfind : List.find? (fun b => translationMatches (normalizeText "nope") b)
        ["hola"] = none := by
      rw [List.find?_cons_of_neg _ (by simp [translationMatches_nope_hola])]
      rfl
    have h := (translation_checkAnswer_spec ⟨"t", "s", ["hola"], .easy⟩
      "nope" false).2.2 hfind "hola" rfl
    rw [h]
    decide

/-- `unlock` on an already-unlocked achievement changes nothing, the
timestamp included. -/
lemma Achievement.unlock_of_unlocked (a : Achievement) (now : Int)
    (h : a.unlocked = true) : a.unlock now = a := by
  simp [Achievement.unlock, h]

/-- `unlock` never changes an achievement's id. -/
lemma Achievement.unlock_id (a : Achievement) (now : Int) : (a.unlock now).id = a.id := by
  simp only [Achievement.unlock]
  split <;> rfl

/-- A targeted unlock leaves an already-unlocked entry untouched at its
position. -/
lemma unlockById_get?_unlocked (l : List Achievement) (aid : String) (now : Int)
    {i : Nat} {a : Achievement} (h : a.unlocked = true)
    (hget : l.get? i = some a) :
    (unlockById l aid now).get? i = some a := by
  rw [List.get?_eq_getElem?] at hget
  rw [unlockById, List.get?_eq_getElem?, List.getElem?_map, hget]
  simp only [Option.map_some', Option.some.injEq]
  split
  · exact Achievement.unlock_of_unlocked a now h
  · rfl

/-- A conditional targeted unlock leaves an already-unlocked entry
untouched at its position. -/
lemma condUnlock_get? (b : Prop) [Decidable b] (l : List Achievement) (aid : String)
    (now : Int) {i : Nat} {a : Achievement} (h : a.unlocked = true)
    (hget : l.get? i = some a) :
    (if b then unlockById l aid now else l).get? i = some a := by
  split
  · exact unlockById_get?_unlocked l aid now h hget
  · exact hget

/-- One tracker call leaves every already-unlocked achievement untouched
at its position. -/
lemma trackerStep_get?_unlocked (t : TrackerState) (op : TrackerOp)
    {i : Nat} {a : Achievement} (hget : t.achievements.get? i = some a)
    (h : a.unlocked = true) :
    (trackerStep t op).achievements.get? i = some a := by
  cases op with
  | lesson c now =>
    exact condUnlock_get? _ _ _ _ h (condUnlock_get? _ _ _ _ h hget)
  | streak d now =>
    exact condUnlock_get? _ _ _ _ h (condUnlock_get? _ _ _ _ h hget)

/-- A whole run of tracker calls leaves every already-unlocked
achievement untouched at its position. -/
lemma trackerRun_get?_unlocked (ops2 : List TrackerOp) :
    ∀ (t : TrackerState) (i : Nat) (a : Achievement),
      t.achievements.get? i = some a → a.unlocked = true →
      (trackerRun t ops2).achievements.get? i = some a := by
  induction ops2 with
  | nil => intro t i a hget _; exact hget
  | cons op rest ih =>
    intro t i a hget h
    exact ih (trackerStep t op) i a (trackerStep_get?_unlocked t op hget h) h

/-- A targeted unlock preserves the id sequence of the catalog. -/
lemma unlockById_ids (l : List Achievement) (aid : String) (now : Int) :
    (unlockById l aid now).map (fun a => a.id) = l.map (fun a => a.id) := by
  rw [unlockById, List.map_map]
  apply List.map_congr_left
  intro a _
  simp only [Function.comp_apply]
  split
  · exact Achievement.unlock_id a now
  · rfl

/-- One tracker call preserves the id sequence. -/
lemma trackerStep_ids (t : TrackerState) (op : TrackerOp) :
    (trackerStep t op).achievements.map (fun a => a.id)
      = t.achievements.map (fun a => a.id) := by
  cases op <;>
    dsimp only [trackerStep, checkLessonCompletion, checkStreak] <;>
    split_ifs <;> simp [unlockById_ids]

/-- A whole run preserves the id sequence. -/
lemma trackerRun_ids_aux (ops : List TrackerOp) :
    ∀ t : TrackerState, (trackerRun t ops).achievements.map (fun a => a.id)
      = t.achievements.map (fun a => a.id) := by
  induction ops with
  | nil => intro t; rfl
  | cons op rest ih =>
    intro t
    exact (ih (trackerStep t op)).trans (trackerStep_ids t op)

/-- From the fresh tracker, the id sequence is always the catalog's. -/
lemma trackerRun_ids (ops : List TrackerOp) :
    (trackerRun TrackerState.init ops).achievements.map (fun a => a.id)
      = ["first-lesson", "ten-lessons", "week-streak", "month-streak"] :=
  (trackerRun_ids_aux ops TrackerState.init).trans (by decide)

/-- Claim C7: unlocking is idempotent (an unlocked achievement and its
timestamp survive any further calls unchanged), achievements are never
re-locked, and the unlocked list carries exactly one entry per unlocked
achievement. -/
theorem achievement_unlock_once (ops ops2 : List TrackerOp) :
    (∀ (a : Achievement) (now : Int), a.unlocked = true → a.unlock now = a)
  ∧ (∀ (i : Nat) (a : Achievement),
        (trackerRun TrackerState.init ops).achievements.get? i = some a →
        a.unlocked = true →
        (trackerRun TrackerState.init (ops ++ ops2)).achievements.get? i = some a)
  ∧ (((getUnlockedAchievements (trackerRun TrackerState.init ops)).map
        (fun d => d.id)).Nodup
     ∧ ∀ aid : String,
        aid ∈ (getUnlockedAchievements (trackerRun TrackerState.init ops)).map (fun d => d.id)
          ↔ ∃ a ∈ (trackerRun TrackerState.init ops).achievements,
              a.unlocked = true ∧ a.id = aid) := by
  refine ⟨Achievement.unlock_of_unlocked, ?_, ?_, ?_⟩
  · intro i a hget h
    rw [show trackerRun TrackerState.init (ops ++ ops2)
        = trackerRun (trackerRun TrackerState.init ops) ops2 from List.foldl_append ..]
    exact trackerRun_get?_unlocked ops2 _ i a hget h
  · have hmapeq : (getUnlockedAchievements (trackerRun TrackerState.init ops)).map
        (fun d => d.id)
        = ((trackerRun TrackerState.init ops).achievements.filter
            (fun a => a.unlocked)).map (fun a => a.id) := by
      rw [getUnlockedAchievements, List.map_map]
      rfl
    rw [hmapeq]
    refine List.Nodup.sublist (List.Sublist.map _ (List.filter_sublist _)) ?_
    rw [trackerRun_ids ops]
    decide
  · intro aid
    simp only [getUnlockedAchievements, List.map_map, List.mem_map, List.mem_filter,
      Function.comp_apply]
    constructor
    · rintro ⟨a, ⟨hmem, hunl⟩, hid⟩
      exact ⟨a, hmem, hunl, hid⟩
    · rintro ⟨a, hmem, hunl, hid⟩
      exact ⟨a, ⟨hmem, hunl⟩, hid⟩

/-- Witness for C7: unlocking "first-lesson" at time 100 and again at
time 200 leaves the entry unlocked with the original timestamp. -/
theorem achievement_unlock_once_witness :
    (trackerRun TrackerState.init
        ([TrackerOp.lesson 1 100] ++ [TrackerOp.lesson 1 200])).achievements.get? 0
      = some { id := "first-lesson", name := "First Steps"
               description := "Complete your first lesson"
               tier := .bronze, unlocked := true, unlockedAt := some 100 } :=
  (achievement_unlock_once [TrackerOp.lesson 1 100] [TrackerOp.lesson 1 200]).2.1 0
    { id := "first-lesson", name := "First Steps"
      description := "Complete your first lesson"
      tier := .bronze, unlocked := true, unlockedAt := some 100 }
    (by decide) rfl

/-- Claim C8 counterexample: the spec requires every operation with a
current-time default to take an explicit timestamp override, making
results a function of explicit inputs only.  `Achievement.unlock` takes
no time parameter in the source — it reads `Date.now()` internally (the
`now` argument of the embedding models that ambient clock read) — so the
same call on the same achievement state yields different results under
different ambient clocks. -/
theorem unlock_ambient_counterexample :
    Achievement.unlock
        ⟨"first-lesson", "First Steps", "Complete your first lesson", .bronze, false, none⟩ 0
      ≠ Achievement.unlock
        ⟨"first-lesson", "First Steps", "Complete your first lesson", .bronze, false, none⟩ 1 := by
  decide

/-- Claim C8 (amended): `recordActivity` and `regenerate` do accept
explicit date/time arguments, but `Achievement.unlock`, the wrong-answer
path of `EnergySystem.recordAnswer`, `refill` and the `EnergySystem`
constructor read the ambient clock with no override parameter: their
resulting timestamps equal the ambient clock value at the call. -/
theorem ambient_clock_dependence :
    (∀ (a : Achievement) (now : Int), a.unlocked = false →
        (a.unlock now).unlockedAt = some now)
  ∧ (∀ (s : EnergyState) (now : Int), 0 < s.currentEnergy →
        (s.recordAnswer false now).lastUpdate = now)
  ∧ (∀ (s : EnergyState) (now : Int), (s.refill now).lastUpdate = now)
  ∧ (∀ (maxE now : Int), (EnergyState.init maxE now).lastUpdate = now) := by
  refine ⟨?_, ?_, ?_, ?_⟩
  · intro a now h
    simp [Achievement.unlock, h]
  · intro s now h
    simp [EnergyState.recordAnswer, h]
  · intro s now
    rfl
  · intro maxE now
    rfl

/-- Witness for the amended C8 at concrete states and clock values. -/
theorem ambient_clock_dependence_witness :
    (Achievement.unlock ⟨"x", "n", "d", .bronze, false, none⟩ 42).unlockedAt = some 42
  ∧ (EnergyState.recordAnswer ⟨5, 3, 0⟩ false 7).lastUpdate = 7 :=
  ⟨ambient_clock_dependence.1 ⟨"x", "n", "d", .bronze, false, none⟩ 42 rfl,
   ambient_clock_dependence.2.1 ⟨5, 3, 0⟩ 7 (by decide)⟩

end LangGame
